import Mathlib

/-!
# tsuru-client: the pre-run hook forcer, the plugin commands and app-swap

A shallow embedding of `internal/wrappers/cobra.go`, `tsuru/swap.go` and
`tsuru/client/plugin.go`. Calls to the Go standard library, to cobra and to the
tsuru libraries are either fields of a structure of collaborators or small models
whose doc comment names the call. Effects are explicit: a function returns the
error it returns in Go together with the output written, the requests sent, the
filesystem afterwards or the log of the calls made.
-/

set_option autoImplicit false

namespace TsuruClient

/-! # Definitions -/

/-- Go `error` values met in the modelled code. -/
inductive Error where
  /-- `*errors.HTTP` of tsuru: an HTTP status code and the response text. -/
  | HTTP (Code : Int) (Message : String)
  /-- The sentinel `cmd.ErrLookup`. -/
  | ErrLookup
  /-- Any other error, identified by its text. -/
  | text (msg : String)
  deriving DecidableEq, Repr

/-! ## internal/wrappers/cobra.go : `ForceCallPreRun` -/

namespace Wrappers

/-- Address of a `cobra.Command`. A Go `*cobra.Command` is an `Option Ptr`, `none` being nil. -/
abbrev Ptr := Nat

/-- Identity of the Go function value stored in a hook field. -/
abbrev HookFn := Nat

/-- The four pre-run hook fields of `cobra.Command` that `ForceCallPreRun` inspects. -/
inductive HookKind where
  | PreRun
  | PreRunE
  | PersistentPreRun
  | PersistentPreRunE
  deriving DecidableEq, Repr

/-- The fields of `cobra.Command` read by `ForceCallPreRun`; a nil func field is `none`. -/
structure Command where
  PreRun : Option HookFn
  PreRunE : Option HookFn
  PersistentPreRun : Option HookFn
  PersistentPreRunE : Option HookFn
  parent : Option Ptr
  deriving DecidableEq, Repr

/-- Method `(*Command).Parent`: returns the `parent` field. -/
def Command.Parent (c : Command) : Option Ptr := c.parent

/-- The heap of command nodes: every non-nil pointer designates a command. -/
abbrev Heap := Ptr → Command

/-- One hook invocation `owner.kind(cmd, args)`: the function value `fn` held in field `kind`
of the node `owner`, applied to the original `cmd` and `args`. -/
structure Call where
  owner : Ptr
  kind : HookKind
  fn : HookFn
  cmd : Option Ptr
  args : List String
  deriving DecidableEq, Repr

/-- The `for curr != nil` loop of `ForceCallPreRun`, one iteration per unit of fuel.
The result is the list of hook invocations made before the function returned;
`none` means the loop is still running when the fuel is used up. -/
def forLoop (heap : Heap) (cmd : Option Ptr) (args : List String) :
    Nat → Option Ptr → Option (List Call)
  | _, none => some []
  | 0, some _ => none
  | fuel + 1, some curr =>
    match (heap curr).PreRun with
    | some f => some [⟨curr, .PreRun, f, cmd, args⟩]
    | none =>
      match (heap curr).PreRunE with
      | some f => some [⟨curr, .PreRunE, f, cmd, args⟩]
      | none =>
        match (heap curr).PersistentPreRun with
        | some f => some [⟨curr, .PersistentPreRun, f, cmd, args⟩]
        | none =>
          match (heap curr).PersistentPreRunE with
          | some f => some [⟨curr, .PersistentPreRunE, f, cmd, args⟩]
          | none =>
            if some curr = (heap curr).Parent then some []
            else forLoop heap cmd args fuel (heap curr).Parent

/-- `ForceCallPreRun(cmd, args)`: `curr := cmd`, then the loop. -/
def ForceCallPreRun (heap : Heap) (cmd : Option Ptr) (args : List String) (fuel : Nat) :
    Option (List Call) :=
  forLoop heap cmd args fuel cmd

/-- The ancestor chain of `cmd`: `cmd`, its parent, its grandparent, ... (`none` past a nil). -/
def ancestor (heap : Heap) (cmd : Option Ptr) : Nat → Option Ptr
  | 0 => cmd
  | k + 1 => (ancestor heap cmd k).bind (fun p => (heap p).Parent)

/-- The first non-nil hook of a node in the order PreRun, PreRunE, PersistentPreRun,
PersistentPreRunE, if the node has any. -/
def firstHook (c : Command) : Option (HookKind × HookFn) :=
  (c.PreRun.map (fun f => (HookKind.PreRun, f))).orElse fun _ =>
  (c.PreRunE.map (fun f => (HookKind.PreRunE, f))).orElse fun _ =>
  (c.PersistentPreRun.map (fun f => (HookKind.PersistentPreRun, f))).orElse fun _ =>
  c.PersistentPreRunE.map (fun f => (HookKind.PersistentPreRunE, f))

/-- A command with no hook. -/
def bare (parent : Option Ptr) : Command := ⟨none, none, none, none, parent⟩

/-- Two hookless commands that are each other's parent (`a.AddCommand(b); b.AddCommand(a)`). -/
def twoCycle : Heap := fun p =>
  if p = 0 then bare (some 1) else if p = 1 then bare (some 0) else bare none

/-- A three-level tree: node 2 (no hook) under node 1 (PreRunE 7 and PersistentPreRun 8)
under node 0 (PreRun 9, root). -/
def sampleTree : Heap := fun p =>
  if p = 2 then bare (some 1)
  else if p = 1 then ⟨none, some 7, some 8, none, some 0⟩
  else ⟨some 9, none, none, none, none⟩

/-- A hookless chain 1 → 0 whose root 0 is its own parent. -/
def selfRooted : Heap := fun p =>
  if p = 1 then bare (some 0) else bare (some 0)

end Wrappers

/-! ## tsuru/swap.go : `appSwap.Run`, `makeSwap` -/

namespace Swap

/-- The request built by `http.NewRequest(method, url, nil)`. -/
structure Request where
  Method : String
  URL : String
  deriving DecidableEq, Repr

/-- The fields of `appSwap` set by the flags. -/
structure appSwap where
  force : Bool
  cnameOnly : Bool
  deriving DecidableEq, Repr

/-- The part of `cmd.Context` used by `Run`: the arguments, what has been written to
`Stdout` so far, and the content of `Stdin`. -/
structure Context where
  Args : List String
  Stdout : String
  Stdin : String
  deriving DecidableEq, Repr

/-- The collaborators of `Run` outside this repository. -/
structure Env where
  /-- `cmd.GetURL(path)`: the Go pair (url, err). -/
  GetURL : String → String × Option Error
  /-- The error of `url.Parse` inside `http.NewRequest`, if the URL is rejected. -/
  parseErr : String → Option Error
  /-- `client.Do(request)`: the error returned, given the requests already sent. -/
  Do : List Request → Request → Option Error
  /-- What `fmt.Fscanf(stdin, "%s", &answer)` leaves in `answer` (empty if the scan fails). -/
  Fscanf : String → String

/-- What `Run` did: the error returned, `context.Stdout` afterwards, the requests given to
`client.Do` in order. -/
structure Result where
  err : Option Error
  Stdout : String
  sent : List Request
  deriving DecidableEq, Repr

/-- The verb `%t`. -/
def fmtBool (b : Bool) : String := if b then "true" else "false"

/-- The call `fmt.Sprintf("/swap?app1=%s&app2=%s&force=%t&cnameOnly=%t", app1, app2, force, cnameOnly)`. -/
def swapPath (app1 app2 : String) (force cnameOnly : Bool) : String :=
  "/swap?app1=" ++ app1 ++ "&app2=" ++ app2 ++ "&force=" ++ fmtBool force ++
    "&cnameOnly=" ++ fmtBool cnameOnly

/-- The call `strings.TrimRight(s, "\n")`: `s` without its trailing newlines. -/
def TrimRightNewlines (s : String) : String :=
  String.mk (s.data.reverse.dropWhile (fun c => c == '\n')).reverse

/-- `http.NewRequest(method, url, nil)`. -/
def NewRequest (env : Env) (method url : String) : Except Error Request :=
  match env.parseErr url with
  | some e => .error e
  | none => .ok ⟨method, url⟩

/-- `makeSwap(client, url)`; `sent` is the log of requests given to `client.Do` so far. -/
def makeSwap (env : Env) (sent : List Request) (url : String) : Option Error × List Request :=
  match NewRequest env "PUT" url with
  | .error err => (some err, sent)
  | .ok request => (env.Do sent request, sent ++ [request])

/-- `(*appSwap).Run(context, client)`. `none` is the index-out-of-range panic of
`context.Args[0]` or `context.Args[1]`. -/
def appSwap.Run (env : Env) (s : appSwap) (context : Context) : Option Result :=
  match context.Args with
  | app1 :: app2 :: _ =>
    match env.GetURL (swapPath app1 app2 s.force s.cnameOnly) with
    | (_, some err) => some ⟨some err, context.Stdout, []⟩
    | (url, none) =>
      match makeSwap env [] url with
      | (some err, sent) =>
        match err with
        | .HTTP Code Message =>
          if Code = 412 then
            let out := context.Stdout ++ "WARNING: " ++ TrimRightNewlines Message ++
              ".\nSwap anyway? (y/n) "
            let answer := env.Fscanf context.Stdin
            if answer = "y" ∨ answer = "yes" then
              let url2 := (env.GetURL (swapPath app1 app2 true s.cnameOnly)).1
              let r := makeSwap env sent url2
              some ⟨r.1, out, r.2⟩
            else
              some ⟨none, out ++ "swap aborted." ++ "\n", sent⟩
          else some ⟨some err, context.Stdout, sent⟩
        | _ => some ⟨some err, context.Stdout, sent⟩
      | (none, sent) => some ⟨none, context.Stdout ++ "Apps successfully swapped!" ++ "\n", sent⟩
  | _ => none

/-- A server that refuses the unforced swap with 412 and accepts the forced one; the target
is `http://tsuru.io` and the user's answer is the content of stdin. -/
def strictServer : Env where
  GetURL := fun path => ("http://tsuru.io" ++ path, none)
  parseErr := fun _ => none
  Do := fun sent _ => if sent = [] then some (.HTTP 412 "different units\n") else none
  Fscanf := fun stdin => stdin

/-- A server that accepts the first request. -/
def easyServer : Env where
  GetURL := fun path => ("http://tsuru.io" ++ path, none)
  parseErr := fun _ => none
  Do := fun _ _ => none
  Fscanf := fun stdin => stdin

end Swap

/-! ## tsuru/client/plugin.go : plugin install, remove, list and run -/

namespace Client

/-- A cleaned absolute path, as the list of its elements below the root (`/a/b` is
`["a", "b"]`, the root is `[]`). -/
abbrev Path := List String

/-- The elements of a slash-separated string, empty ones included. -/
def splitSlash : List Char → List (List Char)
  | [] => [[]]
  | c :: cs =>
    if c = '/' then [] :: splitSlash cs
    else
      match splitSlash cs with
      | [] => [[c]]
      | w :: ws => (c :: w) :: ws

/-- The elements of a path string. -/
def elems (s : String) : List String := (splitSlash s.data).map String.mk

/-- One element of `filepath.Clean` on a rooted path: empty and `.` elements vanish, `..`
removes the element before it (and nothing at the root). -/
def cleanStep (acc : Path) (c : String) : Path :=
  if c = "" ∨ c = "." then acc
  else if c = ".." then acc.dropLast
  else acc ++ [c]

/-- The function `filepath.Clean` on the elements of a rooted path. -/
def Clean (cs : List String) : Path := cs.foldl cleanStep []

/-- `cmd.JoinWithUserDir(p...)`: `filepath.Join` of the user's home directory and `p`.
The home directory is a cleaned absolute path. -/
def JoinWithUserDir (home : Path) (p : List String) : Path :=
  Clean (home ++ p.foldr (fun s acc => elems s ++ acc) [])

/-- The string of a path. -/
def Path.str (p : Path) : String := "/" ++ "/".intercalate p

/-- A name that is one path element: no slash in it, and not empty, `.` or `..`. -/
def plainName (n : String) : Prop := elems n = [n] ∧ n ≠ "" ∧ n ≠ "." ∧ n ≠ ".."

instance (n : String) : Decidable (plainName n) := by
  unfold plainName; infer_instance

/-- What a path of the filesystem holds. -/
inductive Node where
  | file (data : String)
  | dir
  deriving DecidableEq, Repr

/-- The filesystem: the nodes below the root, by path. The root always is a directory. -/
abbrev FS := List (Path × Node)

/-- The node at a path. -/
def FS.get : FS → Path → Option Node
  | [], _ => none
  | (q, n) :: rest, p => if q = p then some n else FS.get rest p

/-- The filesystem without the node at a path. -/
def FS.del (fs : FS) (p : Path) : FS := fs.filter (fun e => decide (e.1 ≠ p))

/-- The filesystem with the node at a path replaced. -/
def FS.put (fs : FS) (p : Path) (n : Node) : FS := (p, n) :: fs.del p

/-- Whether a path is a directory. -/
def FS.isDir (fs : FS) (p : Path) : Bool := decide (p = []) || decide (fs.get p = some .dir)

/-- The name under which a path is an entry of directory `d`, if it is one. -/
def entryName (d p : Path) : Option String :=
  if p ≠ [] ∧ p.dropLast = d then p.getLast? else none

/-- The names of the entries of directory `d`, in the order of the filesystem. -/
def FS.names (fs : FS) (d : Path) : List String :=
  fs.filterMap fun e => entryName d e.1

/-- `MkdirAll`, from the directory `done` downwards. -/
def mkdirFrom (fs : FS) (done : Path) : List String → Except Error FS
  | [] => .ok fs
  | c :: rest =>
    match fs.get (done ++ [c]) with
    | some (.file _) => .error (.text "not a directory")
    | some .dir => mkdirFrom fs (done ++ [c]) rest
    | none => mkdirFrom (fs.put (done ++ [c]) .dir) (done ++ [c]) rest

/-- `filesystem().MkdirAll(path, 0755)`: creates the directory and the missing ones above it;
fails when one of them is a file. -/
def MkdirAll (fs : FS) (p : Path) : Except Error FS := mkdirFrom fs [] p

/-- `filesystem().OpenFile(path, os.O_WRONLY|os.O_CREATE|os.O_TRUNC, 0755)`: an existing file
is emptied, a missing one is created empty when its directory exists. The open file is
designated by its path. -/
def OpenFile (fs : FS) (p : Path) : Except Error FS :=
  match fs.get p with
  | some .dir => .error (.text "is a directory")
  | some (.file _) => .ok (fs.put p (.file ""))
  | none =>
    if p ≠ [] ∧ fs.isDir p.dropLast then .ok (fs.put p (.file ""))
    else if p = [] then .error (.text "is a directory")
    else .error (.text "no such file or directory")

/-- `filesystem().Remove(path)`: removes a file or an empty directory. -/
def Remove (fs : FS) (p : Path) : Except Error FS :=
  match fs.get p with
  | none => .error (.text "no such file or directory")
  | some (.file _) => .ok (fs.del p)
  | some .dir =>
    if fs.names p = [] then .ok (fs.del p) else .error (.text "directory not empty")

/-- `ioutil.ReadDir(dirname)`: the names of the entries of a directory, sorted. -/
def ReadDir (fs : FS) (d : Path) : Except Error (List String) :=
  if fs.isDir d then .ok ((fs.names d).insertionSort (fun a b => a.data ≤ b.data))
  else .error (.text "no such file or directory")

/-- The response of `http.Get` as `installPlugin` reads it: the status code and the outcome
of `ioutil.ReadAll(resp.Body)`. -/
structure Response where
  StatusCode : Int
  Body : Except Error String

/-- The collaborators of the install command outside this repository. -/
structure Net where
  /-- The call `http.Get(url)`. -/
  Get : String → Except Error Response
  /-- `file.Write(data)`: the number of bytes the file takes and the error returned. -/
  Write : String → Nat × Option Error
  /-- The verb `%q`: the Go-quoted form of a string. -/
  Quote : String → String

/-- The part of `cmd.Context` used by the install and remove commands. -/
structure Context where
  Args : List String
  Stdout : String
  deriving DecidableEq, Repr

/-- What an install did: the error returned, the filesystem afterwards and the arguments of
the calls to `file.Write`. -/
structure Installed where
  err : Option Error
  fs : FS
  writes : List String
  deriving DecidableEq, Repr

/-- `installPlugin(pluginName, pluginURL)`. -/
def installPlugin (net : Net) (home : Path) (fs : FS) (pluginName pluginURL : String) :
    Installed :=
  let pluginPath := JoinWithUserDir home [".tsuru", "plugins", pluginName]
  match OpenFile fs pluginPath with
  | .error err => ⟨some err, fs, []⟩
  | .ok fs1 =>
    match net.Get pluginURL with
    | .error err => ⟨some err, fs1, []⟩
    | .ok resp =>
      match resp.Body with
      | .error err => ⟨some err, fs1, []⟩
      | .ok data =>
        if resp.StatusCode < 200 ∨ resp.StatusCode ≥ 400 then
          ⟨some (.text ("Invalid status code reading plugin: " ++ toString resp.StatusCode ++
            " - " ++ net.Quote data)), fs1, []⟩
        else
          let fs2 := fs1.put pluginPath (.file (String.mk (data.data.take (net.Write data).1)))
          match (net.Write data).2 with
          | some err => ⟨some err, fs2, [data]⟩
          | none =>
            if (net.Write data).1 ≠ data.length then
              ⟨some (.text "Failed to install plugin."), fs2, [data]⟩
            else ⟨none, fs2, [data]⟩

/-- What a command did: the error returned, the filesystem and `context.Stdout` afterwards. -/
structure Done where
  err : Option Error
  fs : FS
  Stdout : String
  deriving DecidableEq, Repr

/-- `(*PluginInstall).Run(context, client)`; `none` is the index-out-of-range panic. -/
def PluginInstall.Run (net : Net) (home : Path) (fs : FS) (context : Context) : Option Done :=
  let pluginsDir := JoinWithUserDir home [".tsuru", "plugins"]
  match MkdirAll fs pluginsDir with
  | .error err => some ⟨some err, fs, context.Stdout⟩
  | .ok fs1 =>
    match context.Args with
    | pluginName :: pluginURL :: _ =>
      let r := installPlugin net home fs1 pluginName pluginURL
      match r.err with
      | some err => some ⟨some err, r.fs, context.Stdout⟩
      | none =>
        some ⟨none, r.fs,
          context.Stdout ++ "Plugin \"" ++ pluginName ++ "\" successfully installed!" ++ "\n"⟩
    | _ => none

/-- `(*PluginRemove).Run(context, client)`; `none` is the index-out-of-range panic. -/
def PluginRemove.Run (home : Path) (fs : FS) (context : Context) : Option Done :=
  match context.Args with
  | pluginName :: _ =>
    let pluginPath := JoinWithUserDir home [".tsuru", "plugins", pluginName]
    match Remove fs pluginPath with
    | .error err => some ⟨some err, fs, context.Stdout⟩
    | .ok fs1 =>
      some ⟨none, fs1,
        context.Stdout ++ "Plugin \"" ++ pluginName ++ "\" successfully removed!" ++ "\n"⟩
  | [] => none

/-- `(*PluginList).Run(context, client)`: the error returned (always nil) and the names
written, one `fmt.Println` each, in order. A failed `ReadDir` counts as no plugin. -/
def PluginList.Run (home : Path) (fs : FS) : Option Error × List String :=
  let pluginsPath := JoinWithUserDir home [".tsuru", "plugins"]
  let plugins := match ReadDir fs pluginsPath with
    | .ok l => l
    | .error _ => []
  (none, plugins)

/-- The options given to the executor (`exec.ExecuteOptions`); streams are designated by a
number. -/
structure ExecuteOptions where
  Cmd : String
  Args : List String
  Stdout : Nat
  Stderr : Nat
  Stdin : Nat
  Envs : List String
  deriving DecidableEq, Repr

/-- The part of `cmd.Context` used by `RunPlugin`. -/
structure RunContext where
  Args : List String
  Stdout : Nat
  Stderr : Nat
  Stdin : Nat
  deriving DecidableEq, Repr

/-- The process and the collaborators of `RunPlugin` outside this repository. -/
structure Proc where
  /-- The user's home directory. -/
  home : Path
  /-- The call `os.Getenv(key)`. -/
  Getenv : String → String
  /-- The call `os.Environ()`. -/
  Environ : List String
  /-- `os.IsNotExist(err)` for the error of `os.Stat(path)`. -/
  StatNotExist : String → Bool
  /-- The matches returned by `filepath.Glob(pattern)`. -/
  Glob : String → List String
  /-- The call `cmd.GetTarget()`. -/
  GetTarget : Except Error String
  /-- The call `cmd.ReadToken()`. -/
  ReadToken : Except Error String
  /-- The call `Executor().Execute(opts)`. -/
  Execute : ExecuteOptions → Option Error
  /-- The writer under a stream, which `context.RawOutput()` installs. -/
  raw : Nat → Nat

/-- The calls of `RunPlugin` to the world outside, as they are logged. -/
inductive Event where
  | Stat (path : String)
  | Glob (pattern : String)
  | GetTarget
  | ReadToken
  | Execute (opts : ExecuteOptions)
  deriving DecidableEq, Repr

/-- The method `context.RawOutput()`. -/
def RawOutput (os : Proc) (context : RunContext) : RunContext :=
  ⟨context.Args, os.raw context.Stdout, os.raw context.Stderr, context.Stdin⟩

/-- Lines 122 to 130 of `RunPlugin`: the path to execute (`none` when the function returns
`cmd.ErrLookup`) and the calls made. -/
def resolve (os : Proc) (pluginName : String) : Option String × List Event :=
  let pluginPath := (JoinWithUserDir os.home [".tsuru", "plugins", pluginName]).str
  if os.StatNotExist pluginPath then
    match os.Glob (pluginPath ++ ".*") with
    | [result] => (some result, [.Stat pluginPath, .Glob (pluginPath ++ ".*")])
    | _ => (none, [.Stat pluginPath, .Glob (pluginPath ++ ".*")])
  else (some pluginPath, [.Stat pluginPath])

/-- `RunPlugin(context)`: the error returned and the calls made, in order; `none` is the
index-out-of-range panic of `context.Args[0]`. -/
def RunPlugin (os : Proc) (context : RunContext) : Option (Option Error × List Event) :=
  let context := RawOutput os context
  match context.Args with
  | [] => none
  | pluginName :: args =>
    if os.Getenv "TSURU_PLUGIN_NAME" = pluginName then some (some .ErrLookup, [])
    else
      match resolve os pluginName with
      | (none, log) => some (some .ErrLookup, log)
      | (some pluginPath, log) =>
        match os.GetTarget with
        | .error err => some (some err, log ++ [.GetTarget])
        | .ok target =>
          match os.ReadToken with
          | .error err => some (some err, log ++ [.GetTarget, .ReadToken])
          | .ok token =>
            let envs := os.Environ ++
              ["TSURU_TARGET=" ++ target, "TSURU_TOKEN=" ++ token,
                "TSURU_PLUGIN_NAME=" ++ pluginName]
            let opts : ExecuteOptions :=
              ⟨pluginPath, args, context.Stdout, context.Stderr, context.Stdin, envs⟩
            some (os.Execute opts, log ++ [.GetTarget, .ReadToken, .Execute opts])

/-- The value of an environment entry `key=value` for the given key. -/
def entryValue (key entry : String) : Option String :=
  if (key ++ "=").data.isPrefixOf entry.data then
    some (String.mk (entry.data.drop (key ++ "=").data.length))
  else none

/-- A lookup in an environment list that takes the last entry for the key. -/
def lookupLast (key : String) (envs : List String) : Option String :=
  envs.reverse.findSome? (entryValue key)

/-- Whether an event is a call to the executor. -/
def Event.isExecute : Event → Bool
  | .Execute _ => true
  | _ => false

/-- `filepath.Glob` over a list of paths, for a pattern whose only metacharacter is a final
star: the paths that extend the text before the star within the same directory. -/
def starGlob (paths : List String) (pattern : String) : List String :=
  paths.filter fun p =>
    pattern.data.getLast? == some '*' &&
      pattern.data.dropLast.isPrefixOf p.data &&
        !(p.data.drop pattern.data.dropLast.length).contains '/'

/-- A process of user `/home/u` whose plugin directory holds the given file names. -/
def storeProc (files : List String) (marker : String) (target : Except Error String) : Proc where
  home := ["home", "u"]
  Getenv := fun key => if key = "TSURU_PLUGIN_NAME" then marker else ""
  Environ := ["HOME=/home/u", "TSURU_TOKEN=old"]
  StatNotExist := fun p => !(files.map fun f => "/home/u/.tsuru/plugins/" ++ f).contains p
  Glob := starGlob (files.map fun f => "/home/u/.tsuru/plugins/" ++ f)
  GetTarget := target
  ReadToken := .ok "secret"
  Execute := fun _ => none
  raw := fun s => s

/-- A network where every URL answers 200 with the body `#!/bin/sh`, except that
`http://x/missing` answers 404 with the body `not found`; writes are complete. -/
def sampleNet : Net where
  Get := fun url =>
    if url = "http://x/missing" then .ok ⟨404, .ok "not found"⟩ else .ok ⟨200, .ok "#!/bin/sh"⟩
  Write := fun data => (data.length, none)
  Quote := fun s => "\"" ++ s ++ "\""

end Client

/-! # Theorems -/

/-! ## internal/wrappers/cobra.go -/

namespace Wrappers

theorem forLoop_length (heap : Heap) (cmd : Option Ptr) (args : List String) :
    ∀ (fuel : Nat) (curr : Option Ptr) (calls : List Call),
      forLoop heap cmd args fuel curr = some calls → calls.length ≤ 1 := by
  intro fuel
  induction fuel with
  | zero =>
    intro curr calls h
    cases curr with
    | none => simp [forLoop] at h; subst h; simp
    | some c => simp [forLoop] at h
  | succ n ih =>
    intro curr calls h
    cases curr with
    | none => simp [forLoop] at h; subst h; simp
    | some c =>
      simp only [forLoop] at h
      split at h
      · simp at h; subst h; simp
      · split at h
        · simp at h; subst h; simp
        · split at h
          · simp at h; subst h; simp
          · split at h
            · simp at h; subst h; simp
            · split at h
              · simp at h; subst h; simp
              · exact ih _ _ h

theorem firstHook_eq_none (c : Command) :
    firstHook c = none ↔
      c.PreRun = none ∧ c.PreRunE = none ∧ c.PersistentPreRun = none ∧
        c.PersistentPreRunE = none := by
  rcases c with ⟨a, b, d, e, p⟩
  cases a <;> cases b <;> cases d <;> cases e <;> simp [firstHook, Option.orElse]

/-- One iteration at a node that has a hook: that node's first hook is called. -/
theorem forLoop_hit (heap : Heap) (cmd : Option Ptr) (args : List String) (fuel : Nat)
    (c : Ptr) (kind : HookKind) (fn : HookFn) (h : firstHook (heap c) = some (kind, fn)) :
    forLoop heap cmd args (fuel + 1) (some c) = some [⟨c, kind, fn, cmd, args⟩] := by
  simp only [forLoop]
  rcases hc : heap c with ⟨a, b, d, e, p⟩
  rw [hc] at h
  cases a <;> cases b <;> cases d <;> cases e <;>
    simp [firstHook, Option.orElse] at h ⊢ <;> (obtain ⟨h1, h2⟩ := h; subst h1; subst h2; exact ⟨rfl, rfl⟩)

/-- One iteration at a hookless node. -/
theorem forLoop_miss (heap : Heap) (cmd : Option Ptr) (args : List String) (fuel : Nat)
    (c : Ptr) (h : firstHook (heap c) = none) :
    forLoop heap cmd args (fuel + 1) (some c) =
      if some c = (heap c).Parent then some [] else forLoop heap cmd args fuel (heap c).Parent := by
  obtain ⟨h1, h2, h3, h4⟩ := (firstHook_eq_none _).1 h
  simp only [forLoop, h1, h2, h3, h4]

theorem ancestor_shift (heap : Heap) (cmd : Option Ptr) (k : Nat) :
    ancestor heap cmd (k + 1) = ancestor heap (cmd.bind fun p => (heap p).Parent) k := by
  induction k with
  | zero => simp [ancestor]
  | succ n ih => rw [ancestor, ih, ancestor]

theorem ancestor_fixed (heap : Heap) (c : Ptr) (h : (heap c).Parent = some c) (k : Nat) :
    ancestor heap (some c) k = some c := by
  induction k with
  | zero => rfl
  | succ n ih => simp [ancestor, ih, h]

/-- The walk from `curr` calls the first hook of the nearest node that has one. -/
theorem forLoop_nearest (heap : Heap) (cmd : Option Ptr) (args : List String) :
    ∀ (k : Nat) (curr : Option Ptr) (p : Ptr) (kind : HookKind) (fn : HookFn),
      ancestor heap curr k = some p → firstHook (heap p) = some (kind, fn) →
      (∀ j, j < k → ∀ q, ancestor heap curr j = some q → firstHook (heap q) = none) →
      ∀ fuel, k < fuel → forLoop heap cmd args fuel curr = some [⟨p, kind, fn, cmd, args⟩] := by
  intro k
  induction k with
  | zero =>
    intro curr p kind fn hk hf _ fuel hfuel
    simp only [ancestor] at hk
    subst hk
    obtain ⟨n, rfl⟩ : ∃ n, fuel = n + 1 := ⟨fuel - 1, by omega⟩
    exact forLoop_hit heap cmd args n p kind fn hf
  | succ k ih =>
    intro curr p kind fn hk hf hmin fuel hfuel
    obtain ⟨n, rfl⟩ : ∃ n, fuel = n + 1 := ⟨fuel - 1, by omega⟩
    cases curr with
    | none =>
      rw [ancestor_shift] at hk
      have : ∀ m, ancestor heap none m = none := by
        intro m
        induction m with
        | zero => rfl
        | succ m ihm => simp [ancestor, ihm]
      simp [this] at hk
    | some c =>
      have hc : firstHook (heap c) = none := hmin 0 (by omega) c rfl
      rw [forLoop_miss heap cmd args n c hc]
      by_cases hself : some c = (heap c).Parent
      · have := ancestor_fixed heap c hself.symm (k + 1)
        rw [this] at hk
        cases hk
        rw [hc] at hf
        cases hf
      · rw [if_neg hself]
        rw [ancestor_shift] at hk
        apply ih _ p kind fn hk hf _ n (by omega)
        intro j hj q hq
        apply hmin (j + 1) (by omega) q
        rw [ancestor_shift]
        exact hq

/-- The walk from `curr` stops silently at a hookless root or self-parented node. -/
theorem forLoop_silent (heap : Heap) (cmd : Option Ptr) (args : List String) :
    ∀ (k : Nat) (curr : Option Ptr) (p : Ptr),
      ancestor heap curr k = some p →
      ((heap p).Parent = none ∨ (heap p).Parent = some p) →
      (∀ j, j ≤ k → ∀ q, ancestor heap curr j = some q → firstHook (heap q) = none) →
      ∀ fuel, k < fuel → forLoop heap cmd args fuel curr = some [] := by
  intro k
  induction k with
  | zero =>
    intro curr p hk hp hno fuel hfuel
    simp only [ancestor] at hk
    subst hk
    obtain ⟨n, rfl⟩ : ∃ n, fuel = n + 1 := ⟨fuel - 1, by omega⟩
    rw [forLoop_miss heap cmd args n p (hno 0 (by omega) p rfl)]
    rcases hp with hp | hp
    · rw [hp]
      simp
      cases n <;> simp [forLoop]
    · rw [hp]
      simp
  | succ k ih =>
    intro curr p hk hp hno fuel hfuel
    obtain ⟨n, rfl⟩ : ∃ n, fuel = n + 1 := ⟨fuel - 1, by omega⟩
    cases curr with
    | none => simp [forLoop]
    | some c =>
      rw [forLoop_miss heap cmd args n c (hno 0 (by omega) c rfl)]
      by_cases hself : some c = (heap c).Parent
      · rw [if_pos hself]
      · rw [if_neg hself]
        rw [ancestor_shift] at hk
        apply ih _ p hk hp _ n (by omega)
        intro j hj q hq
        apply hno (j + 1) (by omega) q
        rw [ancestor_shift]
        exact hq

theorem twoCycle_spins : ∀ fuel : Nat,
    forLoop twoCycle (some 0) [] fuel (some 0) = none ∧
      forLoop twoCycle (some 0) [] fuel (some 1) = none := by
  intro fuel
  induction fuel with
  | zero => exact ⟨rfl, rfl⟩
  | succ n ih =>
    refine ⟨?_, ?_⟩
    · rw [forLoop_miss _ _ _ _ _ (by decide)]
      have : (twoCycle 0).Parent = some 1 := rfl
      rw [this, if_neg (by decide)]
      exact ih.2
    · rw [forLoop_miss _ _ _ _ _ (by decide)]
      have : (twoCycle 1).Parent = some 0 := rfl
      rw [this, if_neg (by decide)]
      exact ih.1

/-- C1: `ForceCallPreRun` invokes at most one hook, whatever the command graph; and when the
k-th node of the ancestor chain of `cmd` has a hook while no nearer node has one, the run
returns having made exactly one call: the first non-nil hook of that node in the order
PreRun, PreRunE, PersistentPreRun, PersistentPreRunE, applied to `cmd` and `args`. -/
theorem ForceCallPreRun_calls_nearest_first_hook (heap : Heap) (cmd : Option Ptr)
    (args : List String) :
    (∀ fuel calls, ForceCallPreRun heap cmd args fuel = some calls → calls.length ≤ 1) ∧
    (∀ k p, ancestor heap cmd k = some p → firstHook (heap p) ≠ none →
      (∀ j, j < k → ∀ q, ancestor heap cmd j = some q → firstHook (heap q) = none) →
      ∃ kind fn, firstHook (heap p) = some (kind, fn) ∧
        ∀ fuel, k < fuel →
          ForceCallPreRun heap cmd args fuel = some [⟨p, kind, fn, cmd, args⟩]) := by
  refine ⟨fun fuel calls h => forLoop_length heap cmd args fuel cmd calls h, ?_⟩
  intro k p hk hf hmin
  obtain ⟨⟨kind, fn⟩, hkf⟩ := Option.ne_none_iff_exists'.1 hf
  exact ⟨kind, fn, hkf, fun fuel hfuel =>
    forLoop_nearest heap cmd args k cmd p kind fn hk hkf hmin fuel hfuel⟩

/-- C1 (witness): in the tree 2 → 1 → 0 where node 2 has no hook, node 1 has PreRunE and
PersistentPreRun and node 0 has PreRun, the run from node 2 calls one hook, the PreRunE of
node 1. -/
theorem ForceCallPreRun_calls_nearest_first_hook_witness :
    (∃ kind fn, firstHook (sampleTree 1) = some (kind, fn) ∧
      ∀ fuel, 1 < fuel →
        ForceCallPreRun sampleTree (some 2) ["x"] fuel =
          some [⟨1, kind, fn, some 2, ["x"]⟩]) ∧
    firstHook (sampleTree 1) = some (HookKind.PreRunE, 7) ∧
    ForceCallPreRun sampleTree (some 2) ["x"] 2 =
      some [⟨1, HookKind.PreRunE, 7, some 2, ["x"]⟩] :=
  ⟨(ForceCallPreRun_calls_nearest_first_hook sampleTree (some 2) ["x"]).2 1 1 rfl
      (by decide)
      (fun j hj q hq => by
        have h0 : j = 0 := by omega
        subst h0
        simp only [ancestor, Option.some.injEq] at hq
        subst hq
        decide),
    by decide, by decide⟩

/-- C10 (as amended): when the ancestor chain of `cmd` reaches, at its k-th node, a node
whose parent is nil or is the node itself, and no node of the chain up to there has a
hook, `ForceCallPreRun` returns without calling a hook (any fuel above k is enough). -/
theorem ForceCallPreRun_stops_at_root (heap : Heap) (cmd : Option Ptr) (args : List String)
    (k : Nat) (p : Ptr) (hk : ancestor heap cmd k = some p)
    (hroot : (heap p).Parent = none ∨ (heap p).Parent = some p)
    (hno : ∀ j, j ≤ k → ∀ q, ancestor heap cmd j = some q → firstHook (heap q) = none) :
    ∀ fuel, k < fuel → ForceCallPreRun heap cmd args fuel = some [] :=
  fun fuel hfuel => forLoop_silent heap cmd args k cmd p hk hroot hno fuel hfuel

/-- C10 (witness): in the hookless chain 1 → 0 whose root 0 is its own parent, the run from
node 1 returns after two iterations without calling a hook. -/
theorem ForceCallPreRun_stops_at_root_witness :
    ancestor selfRooted (some 1) 1 = some 0 ∧ (selfRooted 0).Parent = some 0 ∧
      ForceCallPreRun selfRooted (some 1) ["x"] 2 = some [] :=
  ⟨rfl, rfl,
    ForceCallPreRun_stops_at_root selfRooted (some 1) ["x"] 1 0 rfl (Or.inr rfl)
      (fun j _ q _ => by
        unfold selfRooted
        split <;> rfl) 2 (by decide)⟩

/-- C10 (counterexample): two hookless commands that are each other's parent. No node has
a hook, and the run from one of them has not returned after any number of iterations. -/
theorem ForceCallPreRun_two_cycle_never_stops :
    (∀ p, firstHook (twoCycle p) = none) ∧
      ¬ ∃ fuel calls, ForceCallPreRun twoCycle (some 0) [] fuel = some calls := by
  refine ⟨?_, ?_⟩
  · intro p
    unfold twoCycle
    split
    · rfl
    · split <;> rfl
  · rintro ⟨fuel, calls, h⟩
    have := (twoCycle_spins fuel).1
    unfold ForceCallPreRun at h
    rw [this] at h
    cases h

end Wrappers

/-! ## tsuru/swap.go -/

namespace Swap

/-- The first `makeSwap` of `Run`, when the URL is accepted: one request is sent. -/
theorem makeSwap_sends (env : Env) (sent : List Request) (url : String)
    (h : env.parseErr url = none) :
    makeSwap env sent url = (env.Do sent ⟨"PUT", url⟩, sent ++ [⟨"PUT", url⟩]) := by
  simp [makeSwap, NewRequest, h]

/-- `Run` up to the prompt, when the first PUT was refused with 412. -/
theorem Run_on_412 (env : Env) (s : appSwap) (context : Context)
    (app1 app2 : String) (rest : List String) (url1 msg : String)
    (hargs : context.Args = app1 :: app2 :: rest)
    (hurl : env.GetURL (swapPath app1 app2 s.force s.cnameOnly) = (url1, none))
    (hreq1 : env.parseErr url1 = none)
    (h412 : env.Do [] ⟨"PUT", url1⟩ = some (.HTTP 412 msg)) :
    appSwap.Run env s context =
      if env.Fscanf context.Stdin = "y" ∨ env.Fscanf context.Stdin = "yes" then
        some ⟨(makeSwap env [⟨"PUT", url1⟩]
                (env.GetURL (swapPath app1 app2 true s.cnameOnly)).1).1,
          context.Stdout ++ "WARNING: " ++ TrimRightNewlines msg ++ ".\nSwap anyway? (y/n) ",
          (makeSwap env [⟨"PUT", url1⟩]
                (env.GetURL (swapPath app1 app2 true s.cnameOnly)).1).2⟩
      else
        some ⟨none,
          context.Stdout ++ "WARNING: " ++ TrimRightNewlines msg ++ ".\nSwap anyway? (y/n) " ++
            "swap aborted." ++ "\n",
          [⟨"PUT", url1⟩]⟩ := by
  simp only [appSwap.Run, hargs, hurl, makeSwap_sends env [] url1 hreq1, h412]
  simp

/-- C2 (evaluation at the failing input): the server refuses the unforced swap of `blue` and
`green` with 412 "different units", the user answers `y` and the forced PUT succeeds. `Run`
returns no error having written only the warning and the question to `Stdout`: the line
"Apps successfully swapped!" is missing, whereas it is written when the first PUT
succeeds. -/
theorem appSwap_Run_forced_retry_prints_no_confirmation :
    appSwap.Run strictServer ⟨false, false⟩ ⟨["blue", "green"], "", "y"⟩ =
        some ⟨none, "WARNING: different units.\nSwap anyway? (y/n) ",
          [⟨"PUT", "http://tsuru.io/swap?app1=blue&app2=green&force=false&cnameOnly=false"⟩,
           ⟨"PUT", "http://tsuru.io/swap?app1=blue&app2=green&force=true&cnameOnly=false"⟩]⟩ ∧
    appSwap.Run easyServer ⟨false, false⟩ ⟨["blue", "green"], "", ""⟩ =
        some ⟨none, "Apps successfully swapped!\n",
          [⟨"PUT", "http://tsuru.io/swap?app1=blue&app2=green&force=false&cnameOnly=false"⟩]⟩ := by
  decide

/-- C3: when the first PUT of `Run` is refused with 412 and the answer scanned from stdin is
`y` or `yes`, exactly one more request is sent: a PUT to the URL that `cmd.GetURL` builds
for `/swap` with the same app1, app2 and cnameOnly and with force=true, whatever the force
flag was; and `Run` returns what `client.Do` returns for that second request. -/
theorem appSwap_Run_retry_is_forced (env : Env) (s : appSwap) (context : Context)
    (app1 app2 : String) (rest : List String) (url1 msg : String)
    (hargs : context.Args = app1 :: app2 :: rest)
    (hurl : env.GetURL (swapPath app1 app2 s.force s.cnameOnly) = (url1, none))
    (hreq1 : env.parseErr url1 = none)
    (h412 : env.Do [] ⟨"PUT", url1⟩ = some (.HTTP 412 msg))
    (hans : env.Fscanf context.Stdin = "y" ∨ env.Fscanf context.Stdin = "yes")
    (hreq2 : env.parseErr (env.GetURL (swapPath app1 app2 true s.cnameOnly)).1 = none) :
    ∃ r, appSwap.Run env s context = some r ∧
      r.sent = [⟨"PUT", url1⟩,
        ⟨"PUT", (env.GetURL (swapPath app1 app2 true s.cnameOnly)).1⟩] ∧
      r.err = env.Do [⟨"PUT", url1⟩]
        ⟨"PUT", (env.GetURL (swapPath app1 app2 true s.cnameOnly)).1⟩ := by
  rw [Run_on_412 env s context app1 app2 rest url1 msg hargs hurl hreq1 h412, if_pos hans,
    makeSwap_sends env _ _ hreq2]
  exact ⟨_, rfl, rfl, rfl⟩

theorem appSwap_Run_retry_is_forced_witness :
    ∃ r, appSwap.Run strictServer ⟨false, true⟩ ⟨["blue", "green"], "", "yes"⟩ = some r ∧
      r.sent = [⟨"PUT", "http://tsuru.io/swap?app1=blue&app2=green&force=false&cnameOnly=true"⟩,
        ⟨"PUT", (strictServer.GetURL (swapPath "blue" "green" true true)).1⟩] ∧
      r.err = strictServer.Do
        [⟨"PUT", "http://tsuru.io/swap?app1=blue&app2=green&force=false&cnameOnly=true"⟩]
        ⟨"PUT", (strictServer.GetURL (swapPath "blue" "green" true true)).1⟩ :=
  appSwap_Run_retry_is_forced strictServer ⟨false, true⟩ ⟨["blue", "green"], "", "yes"⟩
    "blue" "green" [] "http://tsuru.io/swap?app1=blue&app2=green&force=false&cnameOnly=true"
    "different units\n" rfl (by decide) rfl (by decide) (by decide) rfl

/-- C4: when the first PUT of `Run` is refused with 412 and the answer scanned from stdin is
neither `y` nor `yes`, `Run` writes the warning with the server's message, then the line
"swap aborted.", sends no second request and returns no error. -/
theorem appSwap_Run_decline_aborts (env : Env) (s : appSwap) (context : Context)
    (app1 app2 : String) (rest : List String) (url1 msg : String)
    (hargs : context.Args = app1 :: app2 :: rest)
    (hurl : env.GetURL (swapPath app1 app2 s.force s.cnameOnly) = (url1, none))
    (hreq1 : env.parseErr url1 = none)
    (h412 : env.Do [] ⟨"PUT", url1⟩ = some (.HTTP 412 msg))
    (hans : env.Fscanf context.Stdin ≠ "y" ∧ env.Fscanf context.Stdin ≠ "yes") :
    appSwap.Run env s context =
      some ⟨none,
        context.Stdout ++ "WARNING: " ++ TrimRightNewlines msg ++ ".\nSwap anyway? (y/n) " ++
          "swap aborted." ++ "\n",
        [⟨"PUT", url1⟩]⟩ := by
  rw [Run_on_412 env s context app1 app2 rest url1 msg hargs hurl hreq1 h412,
    if_neg (by rintro (h | h); exacts [hans.1 h, hans.2 h])]

theorem appSwap_Run_decline_aborts_witness :
    appSwap.Run strictServer ⟨true, false⟩ ⟨["blue", "green"], "", "Y"⟩ =
      some ⟨none, "WARNING: different units.\nSwap anyway? (y/n) swap aborted.\n",
        [⟨"PUT", "http://tsuru.io/swap?app1=blue&app2=green&force=true&cnameOnly=false"⟩]⟩ :=
  appSwap_Run_decline_aborts strictServer ⟨true, false⟩ ⟨["blue", "green"], "", "Y"⟩
    "blue" "green" [] "http://tsuru.io/swap?app1=blue&app2=green&force=true&cnameOnly=false"
    "different units\n" rfl (by decide) rfl (by decide) (by decide)

end Swap

/-! ## tsuru/client/plugin.go -/

namespace Client

/-! ### The filesystem -/

theorem FS.get_del_self (fs : FS) (p : Path) : (fs.del p).get p = none := by
  induction fs with
  | nil => rfl
  | cons e rest ih =>
    obtain ⟨q, n⟩ := e
    by_cases h : q = p
    · simpa [FS.del, List.filter_cons, h] using ih
    · simpa [FS.del, List.filter_cons, h, FS.get] using ih

theorem FS.get_del_other (fs : FS) (p q : Path) (h : q ≠ p) :
    (fs.del p).get q = fs.get q := by
  induction fs with
  | nil => rfl
  | cons e rest ih =>
    obtain ⟨r, n⟩ := e
    by_cases hr : r = p
    · subst hr
      have hne : ¬ r = q := fun h' => h h'.symm
      simpa [FS.del, List.filter_cons, FS.get, hne] using ih
    · by_cases hq : r = q
      · subst hq
        simp [FS.del, List.filter_cons, hr, FS.get]
      · simpa [FS.del, List.filter_cons, hr, FS.get, hq] using ih

theorem FS.get_put_self (fs : FS) (p : Path) (n : Node) : (fs.put p n).get p = some n := by
  simp [FS.put, FS.get]

theorem FS.get_put_other (fs : FS) (p q : Path) (n : Node) (h : q ≠ p) :
    (fs.put p n).get q = fs.get q := by
  have hne : ¬ p = q := fun h' => h h'.symm
  simp [FS.put, FS.get, hne, FS.get_del_other fs p q h]

theorem FS.mem_of_get (fs : FS) (p : Path) (node : Node) (h : fs.get p = some node) :
    (p, node) ∈ fs := by
  induction fs with
  | nil => simp [FS.get] at h
  | cons e rest ih =>
    obtain ⟨q, m⟩ := e
    by_cases hq : q = p
    · subst hq
      simp only [FS.get, if_true, Option.some.injEq] at h
      subst h
      exact List.mem_cons_self _ _
    · simp only [FS.get, hq, if_false] at h
      exact List.mem_cons_of_mem _ (ih h)

theorem FS.get_of_mem (fs : FS) (p : Path) (node : Node) (h : (p, node) ∈ fs) :
    fs.get p ≠ none := by
  induction fs with
  | nil => cases h
  | cons e rest ih =>
    obtain ⟨q, m⟩ := e
    by_cases hq : q = p
    · simp [FS.get, hq]
    · simp only [FS.get, hq, if_false]
      rcases List.mem_cons.1 h with h' | h'
      · exact absurd (congrArg Prod.fst h').symm hq
      · exact ih h'

theorem entryName_concat (d : Path) (n : String) : entryName d (d ++ [n]) = some n := by
  simp [entryName]

theorem eq_of_entryName (d p : Path) (n : String) (h : entryName d p = some n) :
    p = d ++ [n] := by
  unfold entryName at h
  split at h
  · rename_i hc
    have := List.dropLast_append_getLast? n h
    rw [← this, hc.2]
  · cases h

theorem FS.get_of_mem_names (fs : FS) (d : Path) (n : String) (h : n ∈ fs.names d) :
    fs.get (d ++ [n]) ≠ none := by
  obtain ⟨e, he, hn⟩ := List.mem_filterMap.1 h
  have hp := eq_of_entryName d e.1 n hn
  apply FS.get_of_mem fs (d ++ [n]) e.2
  rw [← hp]
  exact he

theorem FS.mem_names_of_get (fs : FS) (d : Path) (n : String) (node : Node)
    (h : fs.get (d ++ [n]) = some node) : n ∈ fs.names d :=
  List.mem_filterMap.2 ⟨(d ++ [n], node), FS.mem_of_get fs _ _ h, entryName_concat d n⟩

theorem append_singleton_ne (d : Path) (n : String) : d ++ [n] ≠ d := by
  intro h
  have := congrArg List.length h
  simp at this

theorem mkdirFrom_isDir (rest : List String) :
    ∀ (fs : FS) (done : Path) (fs1 : FS), fs.isDir done = true →
      mkdirFrom fs done rest = .ok fs1 → fs1.isDir (done ++ rest) = true := by
  induction rest with
  | nil =>
    intro fs done fs1 hd h
    simp only [mkdirFrom, Except.ok.injEq] at h
    subst h
    simpa using hd
  | cons c rest ih =>
    intro fs done fs1 _ h
    simp only [mkdirFrom] at h
    have e : done ++ c :: rest = (done ++ [c]) ++ rest := by simp
    rw [e]
    split at h
    · cases h
    · rename_i hg
      exact ih fs (done ++ [c]) fs1 (by simp [FS.isDir, hg]) h
    · exact ih _ (done ++ [c]) fs1 (by simp [FS.isDir, FS.get_put_self]) h

theorem MkdirAll_isDir (fs fs1 : FS) (p : Path) (h : MkdirAll fs p = .ok fs1) :
    fs1.isDir p = true := by
  have := mkdirFrom_isDir p fs [] fs1 (by simp [FS.isDir]) h
  simpa using this

/-! ### Paths -/

theorem Clean_append_plain (cs : List String) (n : String) (h : plainName n) :
    Clean (cs ++ [n]) = Clean cs ++ [n] := by
  obtain ⟨_, h1, h2, h3⟩ := h
  simp [Clean, List.foldl_append, cleanStep, h1, h2, h3]

/-- The path of a plugin whose name is one path element lies in the plugin directory. -/
theorem JoinWithUserDir_plugin (home : Path) (n : String) (h : plainName n) :
    JoinWithUserDir home [".tsuru", "plugins", n] =
      JoinWithUserDir home [".tsuru", "plugins"] ++ [n] := by
  have e1 : elems ".tsuru" = [".tsuru"] := by decide
  have e2 : elems "plugins" = ["plugins"] := by decide
  simp only [JoinWithUserDir, List.foldr, e1, e2, h.1, List.append_nil]
  rw [← Clean_append_plain _ n h]
  simp

/-! ### Install, remove, list -/

theorem OpenFile_ok (fs fs1 : FS) (p : Path) (h : OpenFile fs p = .ok fs1) :
    fs1 = fs.put p (.file "") := by
  simp only [OpenFile] at h
  split at h
  · cases h
  · cases h; rfl
  · split at h
    · cases h; rfl
    · split at h <;> cases h

theorem installPlugin_ok (net : Net) (home : Path) (fs : FS) (n url : String)
    (h : (installPlugin net home fs n url).err = none) :
    ∃ data, (installPlugin net home fs n url).fs =
      ((fs.put (JoinWithUserDir home [".tsuru", "plugins", n]) (.file "")).put
        (JoinWithUserDir home [".tsuru", "plugins", n]) (.file data)) := by
  unfold installPlugin at h ⊢
  cases ho : OpenFile fs (JoinWithUserDir home [".tsuru", "plugins", n]) with
  | error e => simp [ho] at h
  | ok fs1 =>
    have := OpenFile_ok _ _ _ ho
    subst this
    simp only [ho] at h ⊢
    cases hg : net.Get url with
    | error e => simp [hg] at h
    | ok resp =>
      simp only [hg] at h ⊢
      cases hb : resp.Body with
      | error e => simp [hb] at h
      | ok data =>
        simp only [hb] at h ⊢
        by_cases hc : resp.StatusCode < 200 ∨ resp.StatusCode ≥ 400
        · simp [if_pos hc] at h
        · simp only [if_neg hc] at h ⊢
          cases hw : (net.Write data).2 with
          | some e => simp [hw] at h
          | none =>
            simp only [hw] at h ⊢
            by_cases hl : (net.Write data).1 ≠ data.length
            · simp [if_pos hl] at h
            · simp only [if_neg hl]
              exact ⟨_, rfl⟩

end Client

namespace Client

/-- After a successful install of a plugin whose name is one path element, the plugin
directory exists and holds a file of that name. -/
theorem installed_in_dir (net : Net) (home : Path) (fs : FS) (context : Context)
    (n url : String) (rest : List String) (d : Done) (hn : plainName n)
    (hargs : context.Args = n :: url :: rest)
    (hrun : PluginInstall.Run net home fs context = some d) (herr : d.err = none) :
    d.fs.isDir (JoinWithUserDir home [".tsuru", "plugins"]) = true ∧
      ∃ data, d.fs.get (JoinWithUserDir home [".tsuru", "plugins"] ++ [n]) =
        some (.file data) := by
  unfold PluginInstall.Run at hrun
  cases hm : MkdirAll fs (JoinWithUserDir home [".tsuru", "plugins"]) with
  | error e =>
    simp only [hm, Option.some.injEq] at hrun
    subst hrun
    cases herr
  | ok fs1 =>
    simp only [hm, hargs] at hrun
    cases hi : (installPlugin net home fs1 n url).err with
    | some e =>
      simp only [hi, Option.some.injEq] at hrun
      subst hrun
      cases herr
    | none =>
      simp only [hi, Option.some.injEq] at hrun
      subst hrun
      obtain ⟨data, hfs⟩ := installPlugin_ok net home fs1 n url hi
      have hdir := MkdirAll_isDir fs fs1 _ hm
      have hne := (append_singleton_ne (JoinWithUserDir home [".tsuru", "plugins"]) n).symm
      simp only [hfs, JoinWithUserDir_plugin home n hn]
      refine ⟨?_, data, FS.get_put_self _ _ _⟩
      simp only [FS.isDir, FS.get_put_other _ _ _ _ hne] at hdir ⊢
      exact hdir

theorem mem_ReadDir (fs : FS) (d : Path) (n : String) (l : List String)
    (h : ReadDir fs d = .ok l) : n ∈ l ↔ n ∈ fs.names d := by
  unfold ReadDir at h
  split at h
  · simp only [Except.ok.injEq] at h
    subst h
    exact (List.perm_insertionSort _ _).mem_iff
  · cases h

/-- The names `plugin-list` writes are names of entries of the plugin directory. -/
theorem listed_is_entry (home : Path) (fs : FS) (n : String)
    (h : n ∈ (PluginList.Run home fs).2) :
    fs.get (JoinWithUserDir home [".tsuru", "plugins"] ++ [n]) ≠ none := by
  unfold PluginList.Run at h
  cases hr : ReadDir fs (JoinWithUserDir home [".tsuru", "plugins"]) with
  | error e => simp [hr] at h
  | ok l =>
    simp only [hr] at h
    exact FS.get_of_mem_names fs _ n ((mem_ReadDir fs _ n l hr).1 h)

theorem Remove_ok (fs fs1 : FS) (p : Path) (h : Remove fs p = .ok fs1) : fs1 = fs.del p := by
  unfold Remove at h
  split at h
  · cases h
  · cases h; rfl
  · split at h
    · cases h; rfl
    · cases h

/-! ### The environment handed to a plugin -/

theorem entryValue_hit (key v : String) : entryValue key (key ++ "=" ++ v) = some v := by
  unfold entryValue
  have h : (key ++ "=").data.isPrefixOf (key ++ "=" ++ v).data = true := by
    rw [String.data_append (key ++ "=") v]
    exact List.isPrefixOf_iff_prefix.2 (List.prefix_append _ _)
  rw [if_pos h, String.data_append (key ++ "=") v, List.drop_left]

theorem target_hit (t : String) : entryValue "TSURU_TARGET" ("TSURU_TARGET=" ++ t) = some t :=
  entryValue_hit "TSURU_TARGET" t

theorem token_hit (k : String) : entryValue "TSURU_TOKEN" ("TSURU_TOKEN=" ++ k) = some k :=
  entryValue_hit "TSURU_TOKEN" k

theorem name_hit (n : String) :
    entryValue "TSURU_PLUGIN_NAME" ("TSURU_PLUGIN_NAME=" ++ n) = some n :=
  entryValue_hit "TSURU_PLUGIN_NAME" n

theorem target_miss_token (k : String) :
    entryValue "TSURU_TARGET" ("TSURU_TOKEN=" ++ k) = none := by
  have e1 : ("TSURU_TARGET" ++ "=").data =
      ['T', 'S', 'U', 'R', 'U', '_', 'T', 'A', 'R', 'G', 'E', 'T', '='] := by decide
  have e2 : ("TSURU_TOKEN=" ++ k).data =
      'T' :: 'S' :: 'U' :: 'R' :: 'U' :: '_' :: 'T' :: 'O' :: 'K' :: 'E' :: 'N' :: '=' ::
        k.data := by
    rw [String.data_append]; rfl
  simp [entryValue, e1, e2, List.isPrefixOf]

theorem target_miss_name (n : String) :
    entryValue "TSURU_TARGET" ("TSURU_PLUGIN_NAME=" ++ n) = none := by
  have e1 : ("TSURU_TARGET" ++ "=").data =
      ['T', 'S', 'U', 'R', 'U', '_', 'T', 'A', 'R', 'G', 'E', 'T', '='] := by decide
  have e2 : ("TSURU_PLUGIN_NAME=" ++ n).data =
      'T' :: 'S' :: 'U' :: 'R' :: 'U' :: '_' :: 'P' :: 'L' :: 'U' :: 'G' :: 'I' :: 'N' :: '_' ::
        'N' :: 'A' :: 'M' :: 'E' :: '=' :: n.data := by
    rw [String.data_append]; rfl
  simp [entryValue, e1, e2, List.isPrefixOf]

theorem token_miss_name (n : String) :
    entryValue "TSURU_TOKEN" ("TSURU_PLUGIN_NAME=" ++ n) = none := by
  have e1 : ("TSURU_TOKEN" ++ "=").data =
      ['T', 'S', 'U', 'R', 'U', '_', 'T', 'O', 'K', 'E', 'N', '='] := by decide
  have e2 : ("TSURU_PLUGIN_NAME=" ++ n).data =
      'T' :: 'S' :: 'U' :: 'R' :: 'U' :: '_' :: 'P' :: 'L' :: 'U' :: 'G' :: 'I' :: 'N' :: '_' ::
        'N' :: 'A' :: 'M' :: 'E' :: '=' :: n.data := by
    rw [String.data_append]; rfl
  simp [entryValue, e1, e2, List.isPrefixOf]

/-- The three injected entries win a last-entry lookup over any parent environment. -/
theorem lookupLast_injected (E : List String) (t k n : String) :
    lookupLast "TSURU_TARGET"
        (E ++ ["TSURU_TARGET=" ++ t, "TSURU_TOKEN=" ++ k, "TSURU_PLUGIN_NAME=" ++ n]) = some t ∧
    lookupLast "TSURU_TOKEN"
        (E ++ ["TSURU_TARGET=" ++ t, "TSURU_TOKEN=" ++ k, "TSURU_PLUGIN_NAME=" ++ n]) = some k ∧
    lookupLast "TSURU_PLUGIN_NAME"
        (E ++ ["TSURU_TARGET=" ++ t, "TSURU_TOKEN=" ++ k, "TSURU_PLUGIN_NAME=" ++ n]) = some n := by
  refine ⟨?_, ?_, ?_⟩
  · simp only [lookupLast, List.reverse_append, List.reverse_cons, List.reverse_nil,
      List.nil_append, List.cons_append, List.findSome?_cons, target_miss_name,
      target_miss_token, target_hit]
  · simp only [lookupLast, List.reverse_append, List.reverse_cons, List.reverse_nil,
      List.nil_append, List.cons_append, List.findSome?_cons, token_miss_name, token_hit]
  · simp only [lookupLast, List.reverse_append, List.reverse_cons, List.reverse_nil,
      List.nil_append, List.cons_append, List.findSome?_cons, name_hit]

/-- `RunPlugin` once the plugin name passed the self-invocation guard. -/
theorem RunPlugin_guarded (os : Proc) (context : RunContext) (n : String) (args : List String)
    (hargs : context.Args = n :: args) (hself : os.Getenv "TSURU_PLUGIN_NAME" ≠ n) :
    RunPlugin os context =
      match resolve os n with
      | (none, log) => some (some .ErrLookup, log)
      | (some pluginPath, log) =>
        match os.GetTarget with
        | .error err => some (some err, log ++ [.GetTarget])
        | .ok target =>
          match os.ReadToken with
          | .error err => some (some err, log ++ [.GetTarget, .ReadToken])
          | .ok token =>
            some (os.Execute ⟨pluginPath, args, os.raw context.Stdout, os.raw context.Stderr,
                context.Stdin, os.Environ ++ ["TSURU_TARGET=" ++ target,
                  "TSURU_TOKEN=" ++ token, "TSURU_PLUGIN_NAME=" ++ n]⟩,
              log ++ [.GetTarget, .ReadToken,
                .Execute ⟨pluginPath, args, os.raw context.Stdout, os.raw context.Stderr,
                  context.Stdin, os.Environ ++ ["TSURU_TARGET=" ++ target,
                    "TSURU_TOKEN=" ++ token, "TSURU_PLUGIN_NAME=" ++ n]⟩]) := by
  simp only [RunPlugin, RawOutput, hargs, if_neg hself]

end Client

namespace Client

/-- C5 (as amended): for a plugin name `n` other than the self-invocation marker, with
`path` the plugin's path in the store: when `path` exists and the target and token lookups
succeed, the executor is called once, with `Cmd = path`, and no glob is made; when `path`
does not exist, the glob of `path.*` has the single match `m` and the lookups succeed, the
executor is called once, with `Cmd = m`; when `path` does not exist and the glob has no
match or several, `RunPlugin` returns `cmd.ErrLookup` after the stat and the glob alone,
the executor not being called. -/
theorem RunPlugin_resolution (os : Proc) (context : RunContext) (n : String)
    (args : List String) (hargs : context.Args = n :: args)
    (hself : os.Getenv "TSURU_PLUGIN_NAME" ≠ n) :
    (os.StatNotExist (JoinWithUserDir os.home [".tsuru", "plugins", n]).str = false →
      ∀ t k, os.GetTarget = .ok t → os.ReadToken = .ok k →
        ∃ opts : ExecuteOptions,
          opts.Cmd = (JoinWithUserDir os.home [".tsuru", "plugins", n]).str ∧
          opts.Args = args ∧
          RunPlugin os context = some (os.Execute opts,
            [.Stat (JoinWithUserDir os.home [".tsuru", "plugins", n]).str,
              .GetTarget, .ReadToken, .Execute opts])) ∧
    (os.StatNotExist (JoinWithUserDir os.home [".tsuru", "plugins", n]).str = true →
      ∀ m, os.Glob ((JoinWithUserDir os.home [".tsuru", "plugins", n]).str ++ ".*") = [m] →
      ∀ t k, os.GetTarget = .ok t → os.ReadToken = .ok k →
        ∃ opts : ExecuteOptions, opts.Cmd = m ∧ opts.Args = args ∧
          RunPlugin os context = some (os.Execute opts,
            [.Stat (JoinWithUserDir os.home [".tsuru", "plugins", n]).str,
              .Glob ((JoinWithUserDir os.home [".tsuru", "plugins", n]).str ++ ".*"),
              .GetTarget, .ReadToken, .Execute opts])) ∧
    (os.StatNotExist (JoinWithUserDir os.home [".tsuru", "plugins", n]).str = true →
      (os.Glob ((JoinWithUserDir os.home [".tsuru", "plugins", n]).str ++ ".*")).length ≠ 1 →
        RunPlugin os context = some (some .ErrLookup,
          [.Stat (JoinWithUserDir os.home [".tsuru", "plugins", n]).str,
            .Glob ((JoinWithUserDir os.home [".tsuru", "plugins", n]).str ++ ".*")])) := by
  rw [RunPlugin_guarded os context n args hargs hself]
  refine ⟨?_, ?_, ?_⟩
  · intro hstat t k ht hk
    simp only [resolve, hstat, ht, hk]
    exact ⟨_, rfl, rfl, rfl⟩
  · intro hstat m hm t k ht hk
    simp only [resolve, hstat, hm, ht, hk, if_true]
    exact ⟨_, rfl, rfl, rfl⟩
  · intro hstat hlen
    simp only [resolve, hstat, if_true]
    split
    · rename_i hr
      split at hr
      · rename_i hg
        rw [hg] at hlen
        exact absurd rfl hlen
      · cases hr
        rfl
    · rename_i hr
      split at hr
      · rename_i hg
        rw [hg] at hlen
        exact absurd rfl hlen
      · cases hr

/-- C5 (witness): in the store holding `foo` and `bar.sh`, `foo` runs `foo` and `bar` runs
`bar.sh`; `baz` is not found there, nor in the store holding `baz.sh` and `baz.py`. -/
theorem RunPlugin_resolution_witness :
    (∃ opts : ExecuteOptions, opts.Cmd = "/home/u/.tsuru/plugins/foo" ∧ opts.Args = ["-v"] ∧
      RunPlugin (storeProc ["foo", "bar.sh"] "" (.ok "t")) ⟨["foo", "-v"], 1, 2, 0⟩ =
        some ((storeProc ["foo", "bar.sh"] "" (.ok "t")).Execute opts,
          [.Stat "/home/u/.tsuru/plugins/foo", .GetTarget, .ReadToken, .Execute opts])) ∧
    (∃ opts : ExecuteOptions, opts.Cmd = "/home/u/.tsuru/plugins/bar.sh" ∧ opts.Args = [] ∧
      RunPlugin (storeProc ["foo", "bar.sh"] "" (.ok "t")) ⟨["bar"], 1, 2, 0⟩ =
        some ((storeProc ["foo", "bar.sh"] "" (.ok "t")).Execute opts,
          [.Stat "/home/u/.tsuru/plugins/bar", .Glob "/home/u/.tsuru/plugins/bar.*",
            .GetTarget, .ReadToken, .Execute opts])) ∧
    RunPlugin (storeProc ["foo", "bar.sh"] "" (.ok "t")) ⟨["baz"], 1, 2, 0⟩ =
      some (some .ErrLookup,
        [.Stat "/home/u/.tsuru/plugins/baz", .Glob "/home/u/.tsuru/plugins/baz.*"]) ∧
    RunPlugin (storeProc ["baz.sh", "baz.py"] "" (.ok "t")) ⟨["baz"], 1, 2, 0⟩ =
      some (some .ErrLookup,
        [.Stat "/home/u/.tsuru/plugins/baz", .Glob "/home/u/.tsuru/plugins/baz.*"]) :=
  ⟨(RunPlugin_resolution (storeProc ["foo", "bar.sh"] "" (.ok "t")) ⟨["foo", "-v"], 1, 2, 0⟩
      "foo" ["-v"] rfl (by decide)).1 (by decide) "t" "secret" rfl rfl,
   (RunPlugin_resolution (storeProc ["foo", "bar.sh"] "" (.ok "t")) ⟨["bar"], 1, 2, 0⟩
      "bar" [] rfl (by decide)).2.1 (by decide) "/home/u/.tsuru/plugins/bar.sh" (by decide)
      "t" "secret" rfl rfl,
   (RunPlugin_resolution (storeProc ["foo", "bar.sh"] "" (.ok "t")) ⟨["baz"], 1, 2, 0⟩
      "baz" [] rfl (by decide)).2.2 (by decide) (by decide),
   (RunPlugin_resolution (storeProc ["baz.sh", "baz.py"] "" (.ok "t")) ⟨["baz"], 1, 2, 0⟩
      "baz" [] rfl (by decide)).2.2 (by decide) (by decide)⟩

/-- C5 (counterexample): the store holds a file named exactly `foo` and the marker is not
`foo`, yet `RunPlugin` for `foo` executes nothing: no target is configured, so it returns
the error of `cmd.GetTarget` after the stat. -/
theorem RunPlugin_exact_match_not_executed :
    (storeProc ["foo"] "" (.error (.text "no target defined"))).Getenv "TSURU_PLUGIN_NAME"
        ≠ "foo" ∧
    (storeProc ["foo"] "" (.error (.text "no target defined"))).StatNotExist
        "/home/u/.tsuru/plugins/foo" = false ∧
    RunPlugin (storeProc ["foo"] "" (.error (.text "no target defined")))
        ⟨["foo"], 1, 2, 0⟩ =
      some (some (.text "no target defined"),
        [.Stat "/home/u/.tsuru/plugins/foo", .GetTarget]) := by
  decide

/-- C6: when the environment variable `TSURU_PLUGIN_NAME` equals the first argument,
`RunPlugin` returns `cmd.ErrLookup` and its log of calls is empty: no stat, no glob, no
read of the target or of the token, no call of the executor. -/
theorem RunPlugin_self_invocation (os : Proc) (context : RunContext) (X : String)
    (args : List String) (hargs : context.Args = X :: args)
    (hself : os.Getenv "TSURU_PLUGIN_NAME" = X) :
    RunPlugin os context = some (some .ErrLookup, []) := by
  simp only [RunPlugin, RawOutput, hargs, if_pos hself]

theorem RunPlugin_self_invocation_witness :
    RunPlugin (storeProc ["foo", "bar.sh"] "foo" (.ok "t")) ⟨["foo", "-v"], 1, 2, 0⟩ =
      some (some .ErrLookup, []) :=
  RunPlugin_self_invocation (storeProc ["foo", "bar.sh"] "foo" (.ok "t"))
    ⟨["foo", "-v"], 1, 2, 0⟩ "foo" ["-v"] rfl (by decide)

/-- C7: when the plugin's file exists with any content and the GET answers with a status
below 200 or at least 400, `installPlugin` returns the error whose text carries the status
code and the quoted body, calls `file.Write` not once, and leaves the filesystem as the
truncating open made it: the plugin's file exists and is empty. -/
theorem installPlugin_bad_status (net : Net) (home : Path) (fs : FS) (n url prior : String)
    (resp : Response) (data : String)
    (hfile : fs.get (JoinWithUserDir home [".tsuru", "plugins", n]) = some (.file prior))
    (hget : net.Get url = .ok resp) (hbody : resp.Body = .ok data)
    (hcode : resp.StatusCode < 200 ∨ resp.StatusCode ≥ 400) :
    installPlugin net home fs n url =
        ⟨some (.text ("Invalid status code reading plugin: " ++ toString resp.StatusCode ++
            " - " ++ net.Quote data)),
          fs.put (JoinWithUserDir home [".tsuru", "plugins", n]) (.file ""), []⟩ ∧
      (installPlugin net home fs n url).fs.get (JoinWithUserDir home [".tsuru", "plugins", n])
        = some (.file "") := by
  have h : installPlugin net home fs n url =
      ⟨some (.text ("Invalid status code reading plugin: " ++ toString resp.StatusCode ++
          " - " ++ net.Quote data)),
        fs.put (JoinWithUserDir home [".tsuru", "plugins", n]) (.file ""), []⟩ := by
    simp only [installPlugin, OpenFile, hfile, hget, hbody, if_pos hcode]
  rw [h]
  exact ⟨rfl, FS.get_put_self _ _ _⟩

theorem installPlugin_bad_status_witness :
    installPlugin sampleNet ["home", "u"]
        [(["home", "u", ".tsuru", "plugins", "foo"], .file "old content")] "foo"
        "http://x/missing" =
        ⟨some (.text ("Invalid status code reading plugin: " ++ toString (404 : Int) ++
            " - " ++ sampleNet.Quote "not found")),
          FS.put [(["home", "u", ".tsuru", "plugins", "foo"], .file "old content")]
            (JoinWithUserDir ["home", "u"] [".tsuru", "plugins", "foo"]) (.file ""), []⟩ ∧
      (installPlugin sampleNet ["home", "u"]
        [(["home", "u", ".tsuru", "plugins", "foo"], .file "old content")] "foo"
        "http://x/missing").fs.get (JoinWithUserDir ["home", "u"] [".tsuru", "plugins", "foo"])
        = some (.file "") :=
  installPlugin_bad_status sampleNet ["home", "u"]
    [(["home", "u", ".tsuru", "plugins", "foo"], .file "old content")] "foo"
    "http://x/missing" "old content" ⟨404, .ok "not found"⟩ "not found"
    (by decide) rfl rfl (by decide)

/-- C8 (as amended): for a plugin name `n` that is one path element, after
`PluginInstall.Run` succeeds for `n` the names written by `PluginList.Run` include `n`, and
after a following `PluginRemove.Run` succeeds for `n` they do not include `n`. -/
theorem install_list_remove (net : Net) (home : Path) (fs : FS) (context : Context)
    (n url : String) (rest : List String) (d : Done) (hn : plainName n)
    (hargs : context.Args = n :: url :: rest)
    (hrun : PluginInstall.Run net home fs context = some d) (herr : d.err = none) :
    n ∈ (PluginList.Run home d.fs).2 ∧
      ∀ (context2 : Context) (rest2 : List String) (d2 : Done),
        context2.Args = n :: rest2 → PluginRemove.Run home d.fs context2 = some d2 →
          d2.err = none → n ∉ (PluginList.Run home d2.fs).2 := by
  obtain ⟨hdir, data, hfile⟩ := installed_in_dir net home fs context n url rest d hn hargs
    hrun herr
  refine ⟨?_, ?_⟩
  · have hr : ReadDir d.fs (JoinWithUserDir home [".tsuru", "plugins"]) =
        .ok ((d.fs.names (JoinWithUserDir home [".tsuru", "plugins"])).insertionSort
          (fun a b => a.data ≤ b.data)) := by
      simp only [ReadDir, hdir, if_true]
    simp only [PluginList.Run, hr]
    exact (mem_ReadDir _ _ n _ hr).2 (FS.mem_names_of_get _ _ n _ hfile)
  · intro context2 rest2 d2 hargs2 hrm herr2 hmem
    unfold PluginRemove.Run at hrm
    simp only [hargs2] at hrm
    cases hr : Remove d.fs (JoinWithUserDir home [".tsuru", "plugins", n]) with
    | error e =>
      simp only [hr, Option.some.injEq] at hrm
      subst hrm
      cases herr2
    | ok fs2 =>
      simp only [hr, Option.some.injEq] at hrm
      subst hrm
      have := Remove_ok _ _ _ hr
      subst this
      apply listed_is_entry home _ n hmem
      rw [← JoinWithUserDir_plugin home n hn]
      exact FS.get_del_self _ _

/-- C8 (witness): from the empty filesystem, `plugin-install foo http://x/foo` succeeds and
`plugin-list` then writes `foo`; after `plugin-remove foo` it writes nothing. -/
theorem install_list_remove_witness :
    ("foo" ∈ (PluginList.Run ["home", "u"]
      ((PluginInstall.Run sampleNet ["home", "u"] [] ⟨["foo", "http://x/foo"], ""⟩).getD
        ⟨none, [], ""⟩).fs).2 ∧
      ∀ (context2 : Context) (rest2 : List String) (d2 : Done),
        context2.Args = "foo" :: rest2 →
          PluginRemove.Run ["home", "u"]
            ((PluginInstall.Run sampleNet ["home", "u"] [] ⟨["foo", "http://x/foo"], ""⟩).getD
              ⟨none, [], ""⟩).fs context2 = some d2 →
          d2.err = none → "foo" ∉ (PluginList.Run ["home", "u"] d2.fs).2) ∧
    (PluginInstall.Run sampleNet ["home", "u"] [] ⟨["foo", "http://x/foo"], ""⟩).map
        (fun d => (d.err, d.Stdout, (PluginList.Run ["home", "u"] d.fs).2)) =
      some (none, "Plugin \"foo\" successfully installed!\n", ["foo"]) ∧
    ((PluginInstall.Run sampleNet ["home", "u"] [] ⟨["foo", "http://x/foo"], ""⟩).bind
        fun d => (PluginRemove.Run ["home", "u"] d.fs ⟨["foo"], ""⟩).map
          (fun d2 => (d2.err, (PluginList.Run ["home", "u"] d2.fs).2))) =
      some (none, []) :=
  ⟨install_list_remove sampleNet ["home", "u"] [] ⟨["foo", "http://x/foo"], ""⟩ "foo"
      "http://x/foo" [] _ (by decide) rfl (by decide) (by decide),
    by decide, by decide⟩

/-- C8 (counterexample): from the empty filesystem `PluginInstall.Run` succeeds for the
name `../x` (the file written is `.tsuru/x`, outside the plugin directory), and the names
`PluginList.Run` writes afterwards do not include `../x`. -/
theorem install_then_list_misses_name :
    ∃ d : Done,
      PluginInstall.Run sampleNet ["home", "u"] [] ⟨["../x", "http://x/foo"], ""⟩ = some d ∧
      d.err = none ∧
      d.fs.get ["home", "u", ".tsuru", "x"] = some (.file "#!/bin/sh") ∧
      (PluginList.Run ["home", "u"] d.fs).2 = [] ∧
      "../x" ∉ (PluginList.Run ["home", "u"] d.fs).2 :=
  ⟨_, rfl, by decide, by decide, by decide, by decide⟩

/-- C9: when resolution gives a path and the target `t` and the token `k` are read, the
executor is called with the environment `os.Environ()` followed by `TSURU_TARGET=t`,
`TSURU_TOKEN=k` and `TSURU_PLUGIN_NAME=n` in that order: the parent environment is an
unchanged prefix, the length grows by three, and a lookup that takes the last entry for
a key returns the injected value for each of the three keys. -/
theorem RunPlugin_environment (os : Proc) (context : RunContext) (n : String)
    (args : List String) (path t k : String) (log : List Event)
    (hargs : context.Args = n :: args) (hself : os.Getenv "TSURU_PLUGIN_NAME" ≠ n)
    (hres : resolve os n = (some path, log))
    (htarget : os.GetTarget = .ok t) (htoken : os.ReadToken = .ok k) :
    ∃ opts : ExecuteOptions,
      RunPlugin os context =
        some (os.Execute opts, log ++ [.GetTarget, .ReadToken, .Execute opts]) ∧
      opts.Cmd = path ∧
      opts.Envs = os.Environ ++
        ["TSURU_TARGET=" ++ t, "TSURU_TOKEN=" ++ k, "TSURU_PLUGIN_NAME=" ++ n] ∧
      os.Environ <+: opts.Envs ∧
      opts.Envs.length = os.Environ.length + 3 ∧
      lookupLast "TSURU_TARGET" opts.Envs = some t ∧
      lookupLast "TSURU_TOKEN" opts.Envs = some k ∧
      lookupLast "TSURU_PLUGIN_NAME" opts.Envs = some n := by
  rw [RunPlugin_guarded os context n args hargs hself]
  simp only [hres, htarget, htoken]
  obtain ⟨h1, h2, h3⟩ := lookupLast_injected os.Environ t k n
  exact ⟨_, rfl, rfl, rfl, List.prefix_append _ _, by simp, h1, h2, h3⟩

theorem RunPlugin_environment_witness :
    ∃ opts : ExecuteOptions,
      RunPlugin (storeProc ["foo", "bar.sh"] "" (.ok "http://tsuru.io"))
          ⟨["bar", "-v"], 1, 2, 0⟩ =
        some ((storeProc ["foo", "bar.sh"] "" (.ok "http://tsuru.io")).Execute opts,
          [.Stat "/home/u/.tsuru/plugins/bar", .Glob "/home/u/.tsuru/plugins/bar.*"] ++
            [.GetTarget, .ReadToken, .Execute opts]) ∧
      opts.Cmd = "/home/u/.tsuru/plugins/bar.sh" ∧
      opts.Envs = (storeProc ["foo", "bar.sh"] "" (.ok "http://tsuru.io")).Environ ++
        ["TSURU_TARGET=" ++ "http://tsuru.io", "TSURU_TOKEN=" ++ "secret",
          "TSURU_PLUGIN_NAME=" ++ "bar"] ∧
      (storeProc ["foo", "bar.sh"] "" (.ok "http://tsuru.io")).Environ <+: opts.Envs ∧
      opts.Envs.length =
        (storeProc ["foo", "bar.sh"] "" (.ok "http://tsuru.io")).Environ.length + 3 ∧
      lookupLast "TSURU_TARGET" opts.Envs = some "http://tsuru.io" ∧
      lookupLast "TSURU_TOKEN" opts.Envs = some "secret" ∧
      lookupLast "TSURU_PLUGIN_NAME" opts.Envs = some "bar" :=
  RunPlugin_environment (storeProc ["foo", "bar.sh"] "" (.ok "http://tsuru.io"))
    ⟨["bar", "-v"], 1, 2, 0⟩ "bar" ["-v"] "/home/u/.tsuru/plugins/bar.sh" "http://tsuru.io"
    "secret" [.Stat "/home/u/.tsuru/plugins/bar", .Glob "/home/u/.tsuru/plugins/bar.*"]
    rfl (by decide) (by decide) rfl rfl

end Client

end TsuruClient
